import Mathlib

/-
  Verification development for the oread repository.

  Shallow embedding of the two core subsystems:
  - the Encrypted Profile Store (backend/src/services/ProfileStorage.js,
    shipped inside src/backend/src/routes/auth.js in this snapshot), and
  - the Session Manager (backend/src/core/sessionManager.js).

  Files on disk are modelled as an association list from file name to
  stored content.  Encrypted content is modelled structurally: an envelope
  remembers the key it was encrypted with, and decryption succeeds exactly
  when the same key is supplied (the cipher adapter is a pure transform
  whose envelope never false-positives as JSON).  JSON byte strings are
  modelled at the document level: a plain file either holds a parsed
  document shape or opaque non-JSON text.
-/

set_option autoImplicit false

namespace Oread

/-! ## Generic association lists (JS objects / Maps / the profiles dir) -/

/-- Lookup of a key in an association list, first match wins. -/
def alookup {β : Type} : List (String × β) → String → Option β
  | [], _ => none
  | (k', v) :: rest, k => if k = k' then some v else alookup rest k

/-- In-place update when the key is present, append otherwise.  This keeps
the key order of the list stable, matching mutation of an existing JS
object property / `Map.set`. -/
def aset {β : Type} : List (String × β) → String → β → List (String × β)
  | [], k, v => [(k, v)]
  | (k', v') :: rest, k, v =>
    if k' = k then (k, v) :: rest else (k', v') :: aset rest k v

/-- Removal of a key (JS `Map.delete`). -/
def aremove {β : Type} : List (String × β) → String → List (String × β)
  | [], _ => []
  | (k', v) :: rest, k =>
    if k' = k then aremove rest k else (k', v) :: aremove rest k

/-- The keys of an association list, in order. -/
def akeys {β : Type} (l : List (String × β)) : List String :=
  l.map Prod.fst

theorem alookup_aset_self {β : Type} (l : List (String × β)) (k : String)
    (v : β) : alookup (aset l k v) k = some v := by
  induction l with
  | nil => simp [aset, alookup]
  | cons p rest ih =>
    obtain ⟨k', v'⟩ := p
    by_cases h : k' = k
    · simp [aset, h, alookup]
    · have hne : ¬ k = k' := fun hh => h hh.symm
      simp [aset, h, alookup, hne, ih]

theorem alookup_aset_ne {β : Type} (l : List (String × β)) (k k' : String)
    (v : β) (h : k' ≠ k) : alookup (aset l k v) k' = alookup l k' := by
  induction l with
  | nil => simp [aset, alookup, h]
  | cons p rest ih =>
    obtain ⟨k0, v0⟩ := p
    by_cases h0 : k0 = k
    · subst h0
      simp [aset, alookup, if_neg h, ih]
    · by_cases h1 : k' = k0 <;> simp [aset, alookup, h0, h1, ih]

theorem akeys_aset_of_mem {β : Type} (l : List (String × β)) (k : String)
    (v : β) (h : (alookup l k).isSome) : akeys (aset l k v) = akeys l := by
  induction l with
  | nil => simp [alookup] at h
  | cons p rest ih =>
    obtain ⟨k', v'⟩ := p
    by_cases hk : k' = k
    · simp [aset, hk, akeys]
    · have hne : ¬ k = k' := fun hh => hk hh.symm
      simp only [alookup, if_neg hne] at h
      simpa [aset, hk, akeys] using ih h

theorem alookup_aremove_self {β : Type} (l : List (String × β)) (k : String) :
    alookup (aremove l k) k = none := by
  induction l with
  | nil => simp [aremove, alookup]
  | cons p rest ih =>
    obtain ⟨k', v⟩ := p
    by_cases h : k' = k
    · simp [aremove, h, ih]
    · have hne : ¬ k = k' := fun hh => h hh.symm
      simp [aremove, h, alookup, hne, ih]

theorem alookup_aremove_ne {β : Type} (l : List (String × β)) (k k' : String)
    (h : k' ≠ k) : alookup (aremove l k) k' = alookup l k' := by
  induction l with
  | nil => simp [aremove, alookup]
  | cons p rest ih =>
    obtain ⟨k0, v⟩ := p
    by_cases h0 : k0 = k
    · subst h0
      simp [aremove, alookup, if_neg h, ih]
    · by_cases h1 : k' = k0 <;> simp [aremove, alookup, h0, h1, ih]

/-! ## Documents (the canonical on-disk JSON shapes) -/

/-- A favorites entry of a character document. -/
structure Favorite where
  id : String
  text : String
  senderName : String
  timestamp : String
  emotion : Option String
  sentiment : Option String
  deriving Repr, DecidableEq

/-- The `character` payload of a version 2.0 character document, in the
field order built by `saveProfile`. -/
structure Character where
  name : String
  gender : String
  species : String
  age : Int
  role : String
  companionType : String
  appearance : String
  traits : String
  interests : String
  backstory : String
  boundaries : String
  avoidWords : String
  notifications : Bool
  tagSelections : List (String × String)
  favorites : List Favorite
  deriving Repr, DecidableEq

/-- The preference block of the user document. -/
structure Preferences where
  music : List String
  books : List String
  movies : List String
  hobbies : List String
  other : String
  deriving Repr, DecidableEq

/-- The `user` payload of the user document. -/
structure UserInfo where
  name : String
  gender : String
  species : String
  timezone : String
  backstory : String
  preferences : Preferences
  majorLifeEvents : List String
  communicationBoundaries : String
  deriving Repr, DecidableEq

/-- The free-form `settings` map of the user document.  Only the fields
the store actually touches are modelled; `none` means the field is absent
from the JSON object. -/
structure Settings where
  defaultActiveCharacter : Option String
  enableMemory : Option Bool
  enableWebSearch : Option Bool
  webSearchApiKey : Option String
  deriving Repr, DecidableEq

/-- A consent sub-record (shape of the default in `getConsent`). -/
structure Consent where
  accepted : Bool
  timestamp : Option String
  version : String
  checkboxes : List (String × Bool)
  deriving Repr, DecidableEq

/-- A version 2.0 user document (`version` and `type` implicit in the
constructor). -/
structure UserData where
  user : UserInfo
  settings : Settings
  sharedMemory : List String
  consent : Option Consent
  deriving Repr, DecidableEq

/-- A parsed JSON document.  `charDoc` is a `version 2.0` / `type
character` document, `userDoc` a `version 2.0` / `type user` document,
and `other` stands for any other well-formed JSON value (wrong version,
wrong type, or a shape this model does not track). -/
inductive Doc where
  | charDoc (c : Character)
  | userDoc (u : UserData)
  | other
  deriving Repr, DecidableEq

/-- Plain (unencrypted) byte content of a file: either bytes that
`JSON.parse` accepts, yielding a document, or opaque non-JSON text such
as a legacy `key=value` file. -/
inductive Plain where
  | doc (d : Doc)
  | junk (s : String)
  deriving Repr, DecidableEq

/-- Content stored on disk: plain bytes, or a cipher envelope produced by
`EncryptionService.encrypt` under a given key.  `isEncrypted` is the
structural test for the `enc` constructor and never false-positives on
plain content. -/
inductive Stored where
  | clear (p : Plain)
  | enc (key : String) (p : Plain)
  deriving Repr, DecidableEq

/-- The profiles directory: file name to stored content. -/
abbrev FS := List (String × Stored)

/-! ## readFileContent / writeFileContent -/

/-- Failure modes of `readFileContent`: the file is missing (`fs.readFile`
rejects with ENOENT) or decryption with the supplied key fails. -/
inductive ReadErr where
  | notFound
  | decryptFailed
  deriving Repr, DecidableEq

/-- Successful result of `readFileContent`: either plaintext content, or
the raw still-encrypted envelope passed through because no key was
supplied (the source only decrypts when a key is present and the content
looks encrypted). -/
inductive ReadResult where
  | content (p : Plain)
  | envelope (key : String) (p : Plain)
  deriving Repr, DecidableEq

/-- `ProfileStorage.readFileContent(filePath, encryptionKey)`. -/
def readFileContent (fs : FS) (filePath : String)
    (encryptionKey : Option String) : Except ReadErr ReadResult :=
  match alookup fs filePath with
  | none => .error .notFound
  | some (.clear p) => .ok (.content p)
  | some (.enc k p) =>
    match encryptionKey with
    | none => .ok (.envelope k p)
    | some key => if key = k then .ok (.content p) else .error .decryptFailed

/-- `ProfileStorage.writeFileContent(filePath, content, encryptionKey,
shouldEncrypt)`: encrypts exactly when a key is supplied and encryption is
enabled for this file. -/
def writeFileContent (fs : FS) (filePath : String) (content : Plain)
    (encryptionKey : Option String) (shouldEncrypt : Bool) : FS :=
  let stored :=
    match encryptionKey, shouldEncrypt with
    | some k, true => Stored.enc k content
    | _, _ => Stored.clear content
  aset fs filePath stored

/-- JSON.parse applied to the result of `readFileContent`: an envelope
that was passed through undecrypted is not valid JSON (the cipher
envelope is self-describing, not JSON), and so is junk text. -/
def parseDocR : ReadResult → Option Doc
  | .content (.doc d) => some d
  | .content (.junk _) => none
  | .envelope _ _ => none

/-- Read a file and parse it as JSON, collapsing every failure to `none`
(the shape of the `try { ... JSON.parse ... } catch` blocks). -/
def readParsedDoc (fs : FS) (filePath : String) (key : Option String) :
    Option Doc :=
  match readFileContent fs filePath key with
  | .ok r => parseDocR r
  | .error _ => none

/-- The document stored at a file, looking through a cipher envelope.
Used only to state what a file contains. -/
def docStoredAt (fs : FS) (filePath : String) : Option Doc :=
  match alookup fs filePath with
  | some (.clear (.doc d)) => some d
  | some (.enc _ (.doc d)) => some d
  | _ => none

/-! ## Small string helpers (JS string methods) -/

/-- Delete the first occurrence of `pat` (JS `String.prototype.replace`
with a string pattern and an empty replacement string). -/
def deleteFirstOcc : List Char → List Char → List Char
  | [], _ => []
  | c :: rest, pat =>
    if pat.isPrefixOf (c :: rest) then (c :: rest).drop pat.length
    else c :: deleteFirstOcc rest pat

/-- `f.replace(pat, "")` on strings: removes the first occurrence. -/
def jsReplaceOnce (s pat : String) : String :=
  ⟨deleteFirstOcc s.data pat.data⟩

def hasSubstringAux (pat : List Char) : List Char → Bool
  | [] => pat.isEmpty
  | c :: rest => if pat.isPrefixOf (c :: rest) then true else hasSubstringAux pat rest

/-- `s.endsWith(suffix)` (JS), computed on the character lists so that it
reduces inside the kernel. -/
def jsEndsWith (s suffix : String) : Bool :=
  suffix.data.isSuffixOf s.data

/-- Whether `pat` occurs inside `s` (JS `String.prototype.includes`). -/
def hasSubstring (s pat : String) : Bool :=
  hasSubstringAux pat.data s.data

/-- JS truthiness fallback for string-valued fields: `x || dflt` treats
both an absent field and the empty string as falsy. -/
def jsOrStr (v : Option String) (dflt : String) : String :=
  match v with
  | some s => if s = "" then dflt else s
  | none => dflt

/-! ## Profile name policy and listProfiles -/

/-- PUBLIC_PROFILES: profiles that are never encrypted. -/
def PUBLIC_PROFILES : List String := ["Echo", "Kairos"]

/-- `ProfileStorage.shouldEncryptProfile(profileName)`. -/
def shouldEncryptProfile (profileName : String) : Bool :=
  !(PUBLIC_PROFILES.contains profileName)

/-- Which profile name (if any) a directory entry contributes to
`listProfiles`. -/
def profileNameOfFile (f : String) : Option String :=
  if jsEndsWith f ".json" && f != "user-profile.json" then
    some (jsReplaceOnce f ".json")
  else if jsEndsWith f ".txt" && f != "active-character.txt" &&
      f != "user-settings.txt" && !(jsEndsWith f "_avatar.txt") then
    some (jsReplaceOnce f ".txt")
  else
    none

/-- One step of accumulating the deduplicated profile-name set, keeping
insertion order (JS `Set`). -/
def addProfileName (acc : List String) (f : String) : List String :=
  match profileNameOfFile f with
  | some n => if n ∈ acc then acc else acc ++ [n]
  | none => acc

/-- `ProfileStorage.listProfiles()`: scan the directory entries. -/
def listProfiles (fs : FS) : List String :=
  (akeys fs).foldl addProfileName []

/-! ## getProfile -/

/-- A value of a legacy flat-text field (`notifications` is coerced to a
boolean, everything else stays a string). -/
inductive LegacyVal where
  | s (v : String)
  | b (v : Bool)
  deriving Repr, DecidableEq

/-- Parse one `key=value` line of a legacy profile: split at the first
`=`, trim the key, unescape literal backslash-n sequences in the value. -/
def parseLegacyLine (line : String) : Option (String × LegacyVal) :=
  if line.contains '=' then
    let parts := line.splitOn "="
    let key := (parts.headD "").trim
    let value := (String.intercalate "=" parts.tail).replace "\\n" "\n"
    some (key, if key == "notifications" then .b (value == "true") else .s value)
  else
    none

/-- Parse a whole legacy text file; later lines overwrite earlier keys
(JS object property assignment). -/
def parseLegacy (content : String) : List (String × LegacyVal) :=
  (content.splitOn "\n").foldl
    (fun acc line =>
      match parseLegacyLine line with
      | some (k, v) => aset acc k v
      | none => acc) []

/-- The raw text of stored content, for the code path that reads a
legacy `.txt` file without decryption or JSON parsing.  The byte-level
rendering of structured documents and of cipher envelopes is abstracted
to the empty string; no claim exercises the legacy parser on such
content. -/
def rawText : Stored → String
  | .clear (.junk s) => s
  | .clear (.doc _) => ""
  | .enc _ _ => ""

/-- Result of `getProfile`: a full version 2.0 character document, or the
flat object parsed from a legacy text file. -/
inductive GetRes where
  | v2 (c : Character)
  | legacy (entries : List (String × LegacyVal))
  deriving Repr, DecidableEq

/-- `ProfileStorage.getProfile(profileName, encryptionKey)`: canonical
JSON first (decrypting only for private names), legacy text as fallback,
and an error only when both fail. -/
def getProfile (fs : FS) (profileName : String)
    (encryptionKey : Option String) : Except String GetRes :=
  let jsonPath := profileName ++ ".json"
  let txtPath := profileName ++ ".txt"
  let needsDecryption := shouldEncryptProfile profileName
  let jsonTry : Option GetRes :=
    match readFileContent fs jsonPath
        (if needsDecryption then encryptionKey else none) with
    | .ok r =>
      match parseDocR r with
      | some (.charDoc c) => some (.v2 c)
      | _ => none
    | .error _ => none
  match jsonTry with
  | some res => .ok res
  | none =>
    match alookup fs txtPath with
    | none => .error "Profile not found or cannot be decrypted"
    | some st => .ok (.legacy (parseLegacy (rawText st)))

/-! ## saveProfile -/

/-- The flat (non-versioned) update object accepted by `saveProfile`;
`none` marks a field that is absent from the incoming JS object. -/
structure ProfileFields where
  name : Option String := none
  gender : Option String := none
  species : Option String := none
  age : Option Int := none
  role : Option String := none
  companionType : Option String := none
  appearance : Option String := none
  traits : Option String := none
  interests : Option String := none
  backstory : Option String := none
  boundaries : Option String := none
  avoidWords : Option String := none
  notifications : Option Bool := none
  tagSelections : Option (List (String × String)) := none
  favorites : Option (List Favorite) := none
  deriving Repr, DecidableEq

/-- The argument of `saveProfile`: either an object that already passes
the `version === 2.0 && type === character` check, or any other (flat)
object. -/
inductive ProfileInput where
  | full (c : Character)
  | flat (p : ProfileFields)
  deriving Repr, DecidableEq

/-- Convert a parsed JSON document into the value `saveProfile` receives
when the output of `JSON.parse` is fed back in (the re-encryption path).
A version 2.0 character document takes the preserve-exactly branch; any
other document shape carries none of the flat character fields at top
level, so it behaves as an all-absent flat update. -/
def docToInput : Doc → ProfileInput
  | .charDoc c => .full c
  | _ => .flat {}

/-- The version 2.0 object literal that `saveProfile` builds from a flat
update, merged against the (best-effort) previously stored document:
every field comes from the incoming update with a built-in default as the
truthiness fallback, except `favorites`, which is carried over from the
existing document when the update omits it. -/
def mergedCharacter (profileName : String) (p : ProfileFields)
    (existingData : Option Doc) : Character :=
  { name := jsOrStr p.name profileName
    gender := jsOrStr p.gender "female"
    species := jsOrStr p.species "human"
    age :=
      match p.age with
      | some n => if n = 0 then 25 else n
      | none => 25
    role := jsOrStr p.role ""
    companionType := jsOrStr p.companionType "friend"
    appearance := jsOrStr p.appearance ""
    traits := jsOrStr p.traits ""
    interests := jsOrStr p.interests ""
    backstory := jsOrStr p.backstory ""
    boundaries := jsOrStr p.boundaries ""
    avoidWords := jsOrStr p.avoidWords ""
    notifications := p.notifications != some false
    tagSelections := p.tagSelections.getD []
    favorites :=
      match p.favorites with
      | some l => l
      | none =>
        match existingData with
        | some (.charDoc c) => c.favorites
        | _ => [] }

/-- `ProfileStorage.saveProfile(profileName, profileData, encryptionKey)`.
A full version 2.0 character document is preserved exactly; otherwise the
v2.0 structure is rebuilt from the flat fields, loading the existing
document first solely so that `favorites` can be carried over. -/
def saveProfile (fs : FS) (profileName : String)
    (profileData : ProfileInput) (encryptionKey : Option String) : FS :=
  let jsonPath := profileName ++ ".json"
  let data : Doc :=
    match profileData with
    | .full c => .charDoc c
    | .flat p =>
      let needsDecryption := shouldEncryptProfile profileName
      let existingData : Option Doc :=
        readParsedDoc fs jsonPath
          (if needsDecryption then encryptionKey else none)
      .charDoc (mergedCharacter profileName p existingData)
  let shouldEncrypt := shouldEncryptProfile profileName
  writeFileContent fs jsonPath (.doc data) encryptionKey shouldEncrypt

/-! ## removeFavorite -/

/-- Messages of the exceptions rethrown out of `readFileContent`. -/
def readErrMsg : ReadErr → String
  | .notFound => "ENOENT: no such file or directory"
  | .decryptFailed => "Failed to decrypt file - incorrect password or corrupted data"

/-- Message of the exception thrown by `JSON.parse`, abstracted to a
fixed string. -/
def jsonParseErrMsg : String := "Unexpected token in JSON"

/-- `ProfileStorage.removeFavorite(profileName, favoriteId,
encryptionKey)`: filters the favorites list and throws when the length
did not change; the file is written only on success. -/
def removeFavorite (fs : FS) (profileName favoriteId : String)
    (encryptionKey : Option String) : Except String FS :=
  let jsonPath := profileName ++ ".json"
  let needsEncryption := shouldEncryptProfile profileName
  match readFileContent fs jsonPath
      (if needsEncryption then encryptionKey else none) with
  | .error e => .error (readErrMsg e)
  | .ok r =>
    match r with
    | .content (.doc (.charDoc c)) =>
      let initialLength := c.favorites.length
      let newFavorites := c.favorites.filter (fun fav => fav.id != favoriteId)
      if newFavorites.length = initialLength then
        .error ("Favorite " ++ favoriteId ++ " not found")
      else
        .ok (writeFileContent fs jsonPath
          (.doc (.charDoc { c with favorites := newFavorites }))
          encryptionKey needsEncryption)
    | .content (.doc _) =>
      .error ("Profile " ++ profileName ++ " not found or invalid format")
    | _ => .error jsonParseErrMsg

/-! ## reEncryptAllData -/

/-- The error the character-profile loop throws (its inner decrypt
failure is caught and replaced by this fixed message). -/
def reEncryptProfileErr : String := "Failed to re-encrypt profile"

/-- The error the user-profile section throws. -/
def reEncryptUserErr : String := "Failed to re-encrypt user profile"

/-- One iteration of the character-profile loop of `reEncryptAllData`:
skip public profiles, try the old password, fall back to the new
password (skip without rewriting when that works), abort otherwise. -/
def reEncryptOne (fs : FS) (profileName : String)
    (oldPassword newPassword : String) : Except String FS :=
  if shouldEncryptProfile profileName then
    match readFileContent fs (profileName ++ ".json") (some oldPassword) with
    | .ok r =>
      match parseDocR r with
      | some d => .ok (saveProfile fs profileName (docToInput d) (some newPassword))
      | none => .error reEncryptProfileErr
    | .error _ =>
      match readFileContent fs (profileName ++ ".json") (some newPassword) with
      | .ok _ => .ok fs
      | .error _ => .error reEncryptProfileErr
  else
    .ok fs

/-- The character-profile loop of `reEncryptAllData`. -/
def processProfiles (fs : FS) (names : List String)
    (oldPassword newPassword : String) : Except String FS :=
  match names with
  | [] => .ok fs
  | n :: rest =>
    match reEncryptOne fs n oldPassword newPassword with
    | .ok fs1 => processProfiles fs1 rest oldPassword newPassword
    | .error e => .error e

/-- The user-profile section of `reEncryptAllData`: same dual-key retry,
writing back the parsed structure encrypted under the new password. -/
def reEncryptUserProfile (fs : FS) (oldPassword newPassword : String) :
    Except String FS :=
  match readFileContent fs "user-profile.json" (some oldPassword) with
  | .ok r =>
    match parseDocR r with
    | some d =>
      .ok (writeFileContent fs "user-profile.json" (.doc d) (some newPassword) true)
    | none => .error reEncryptUserErr
  | .error _ =>
    match readFileContent fs "user-profile.json" (some newPassword) with
    | .ok _ => .ok fs
    | .error _ => .error reEncryptUserErr

/-- `ProfileStorage.reEncryptAllData(oldPassword, newPassword)`. -/
def reEncryptAllData (fs : FS) (oldPassword newPassword : String) :
    Except String FS :=
  match processProfiles fs (listProfiles fs) oldPassword newPassword with
  | .error e => .error e
  | .ok fs1 => reEncryptUserProfile fs1 oldPassword newPassword

/-! ## The user document operations and the mutable module defaults -/

def defaultPreferences : Preferences :=
  { music := [], books := [], movies := [], hobbies := [], other := "" }

/-- DEFAULT_USER_DATA: the built-in default user document. -/
def DEFAULT_USER_DATA : UserData :=
  { user :=
      { name := "User", gender := "non-binary", species := "human",
        timezone := "UTC", backstory := "",
        preferences := defaultPreferences,
        majorLifeEvents := [], communicationBoundaries := "" },
    settings :=
      { defaultActiveCharacter := none, enableMemory := none,
        enableWebSearch := none, webSearchApiKey := none },
    sharedMemory := [],
    consent := none }

/-- Process state of the store module: the profiles directory plus the
module-level DEFAULT_USER_DATA object, which is a single shared mutable
object that the fallback paths below mutate in place. -/
structure StoreState where
  fs : FS
  defaults : UserData
  deriving Repr, DecidableEq

/-- `ProfileStorage.setActiveProfile(profileName, encryptionKey)`.

The catch branch copies DEFAULT_USER_DATA only shallowly, so the
assignment to `newData.settings.defaultActiveCharacter` also mutates the
settings sub-object of the module-level defaults; this state-passing
rendering updates `defaults` accordingly.  When the file parses to a
document that is not a user document the source still attaches a
settings field to whatever object was parsed and writes it back; the
model collapses that write to `Doc.other` (no claim exercises it). -/
def setActiveProfile (st : StoreState) (profileName : String)
    (encryptionKey : Option String) : StoreState :=
  match readParsedDoc st.fs "user-profile.json" encryptionKey with
  | some (.userDoc u) =>
    let u1 := { u with
      settings := { u.settings with defaultActiveCharacter := some profileName } }
    let fs1 := writeFileContent st.fs "user-profile.json"
      (.doc (.userDoc u1)) encryptionKey true
    { st with fs := fs1 }
  | some _ =>
    let fs1 := writeFileContent st.fs "user-profile.json"
      (.doc .other) encryptionKey true
    { st with fs := fs1 }
  | none =>
    let s1 := { st.defaults.settings with defaultActiveCharacter := some profileName }
    let newData := { st.defaults with settings := s1 }
    let fs1 := writeFileContent st.fs "user-profile.json"
      (.doc (.userDoc newData)) encryptionKey true
    { fs := fs1, defaults := newData }

/-- `ProfileStorage.saveConsent(consentData, encryptionKey)`: read-merge-
write of the consent sub-record; encrypts exactly when a key is present.
When the read fails, `existingData` is the module defaults object itself
and the consent assignment mutates it in place. -/
def saveConsent (st : StoreState) (consentData : Consent)
    (encryptionKey : Option String) : StoreState :=
  match readParsedDoc st.fs "user-profile.json" encryptionKey with
  | some (.userDoc u) =>
    let u1 := { u with consent := some consentData }
    let fs1 := writeFileContent st.fs "user-profile.json"
      (.doc (.userDoc u1)) encryptionKey encryptionKey.isSome
    { st with fs := fs1 }
  | some _ =>
    let fs1 := writeFileContent st.fs "user-profile.json"
      (.doc .other) encryptionKey encryptionKey.isSome
    { st with fs := fs1 }
  | none =>
    let d1 := { st.defaults with consent := some consentData }
    let fs1 := writeFileContent st.fs "user-profile.json"
      (.doc (.userDoc d1)) encryptionKey encryptionKey.isSome
    { fs := fs1, defaults := d1 }

/-- The settings object accepted by `saveUserSettings`; `none` marks an
absent (undefined) field. -/
structure SettingsInput where
  userName : Option String := none
  userGender : Option String := none
  userSpecies : Option String := none
  timezone : Option String := none
  userBackstory : Option String := none
  userPreferences : Option Preferences := none
  majorLifeEvents : Option (List String) := none
  communicationBoundaries : Option String := none
  sharedRoleplayEvents : Option (List String) := none
  enableMemory : Option Bool := none
  enableWebSearch : Option Bool := none
  webSearchApiKey : Option String := none
  defaultActiveCharacter : Option String := none
  deriving Repr, DecidableEq

/-- The field updates `saveUserSettings` applies to the existing user
document: the `user` and `sharedMemory` sections are rebuilt from the
incoming settings, the `settings` section is updated in place (the
`defaultActiveCharacter` only when supplied), and `consent` is kept. -/
def applySettings (existingData : UserData) (settings : SettingsInput) : UserData :=
  let user1 : UserInfo :=
    { name := jsOrStr settings.userName "User"
      gender := jsOrStr settings.userGender "non-binary"
      species := jsOrStr settings.userSpecies "human"
      timezone := jsOrStr settings.timezone "UTC"
      backstory := jsOrStr settings.userBackstory ""
      preferences := settings.userPreferences.getD defaultPreferences
      majorLifeEvents := settings.majorLifeEvents.getD []
      communicationBoundaries := jsOrStr settings.communicationBoundaries "" }
  let s1 :=
    { existingData.settings with
      enableMemory := some (settings.enableMemory.getD false)
      enableWebSearch := some (settings.enableWebSearch.getD false)
      webSearchApiKey := some (jsOrStr settings.webSearchApiKey "") }
  let s2 :=
    match settings.defaultActiveCharacter with
    | some dac => { s1 with defaultActiveCharacter := some dac }
    | none => s1
  { existingData with
    user := user1
    sharedMemory := settings.sharedRoleplayEvents.getD []
    settings := s2 }

/-- `ProfileStorage.saveUserSettings(settings, encryptionKey)`.

When the existing file cannot be read or parsed the source checks
`fs.access` and throws a refusal error, but that throw sits inside the
same inner `try` block whose `catch (accessErr)` swallows every
exception, so control falls through in BOTH the missing-file case and
the exists-but-unreadable case: the operation proceeds from the
module-level defaults object (mutating it in place) and overwrites the
file.  The function therefore never fails. -/
def saveUserSettings (st : StoreState) (settings : SettingsInput)
    (encryptionKey : Option String) : StoreState :=
  match readParsedDoc st.fs "user-profile.json" encryptionKey with
  | some (.userDoc u) =>
    let fs1 := writeFileContent st.fs "user-profile.json"
      (.doc (.userDoc (applySettings u settings))) encryptionKey true
    { st with fs := fs1 }
  | some _ =>
    let fs1 := writeFileContent st.fs "user-profile.json"
      (.doc .other) encryptionKey true
    { st with fs := fs1 }
  | none =>
    let d1 := applySettings st.defaults settings
    let fs1 := writeFileContent st.fs "user-profile.json"
      (.doc (.userDoc d1)) encryptionKey true
    { fs := fs1, defaults := d1 }

/-! ## Session Manager (backend/src/core/sessionManager.js) -/

/-- Modelled from the spec: the agent instance (`HybridChatbot`, an
external collaborator whose source is not part of the core) at its
interface boundary: a conversation history owned by the instance
(`clearHistory` empties it), a character loader with an injectable
encryption key (`setEncryptionKey`) and a current active character name
(`getActiveCharacterName`), and an exposed mutable cached-character slot.
`instId` is a ghost field standing for JS object identity, so that
instance reuse can be stated. -/
structure Chatbot where
  instId : Nat
  history : List String
  loaderKey : Option String
  activeCharacter : Option String
  cachedCharacter : Option String
  deriving Repr, DecidableEq

/-- Modelled from the spec: the outcome of
`characterLoader.loadCharacterAsync` is supplied by the environment — for
a requested name, either a terminal error or the name of the character
that actually loaded (which the manager compares against the request);
`loadDefault` is the no-argument variant that loads the store default. -/
structure LoadEnv where
  loadNamed : String → Except String String
  loadDefault : Except String String

/-- The registries owned by the `SessionManager` constructor.  `nextInstId`
is the ghost counter backing `Chatbot.instId`. -/
structure SMState where
  sessions : List (String × Chatbot)
  sessionCharacters : List (String × String)
  latestRequestIds : List (String × String)
  charactersWithStarters : List String
  lastActivity : List (String × Nat)
  nextInstId : Nat
  deriving Repr, DecidableEq

/-- A freshly constructed `SessionManager`. -/
def initialSMState : SMState :=
  { sessions := [], sessionCharacters := [], latestRequestIds := [],
    charactersWithStarters := [], lastActivity := [], nextInstId := 0 }

/-- `SessionManager.getChatbot(sessionId, characterName, encryptionKey)`
at time `now`.  Returns the state as mutated so far together with either
the chatbot or the propagated error: JS exceptions do not roll back
earlier `Map` mutations, in particular the `lastActivity` timestamp is
written before anything else.  `characterName = some ""` behaves as no
character request (JS truthiness). -/
def getChatbot (env : LoadEnv) (st : SMState) (sessionId : String)
    (characterName : Option String) (encryptionKey : Option String)
    (now : Nat) : SMState × Except String Chatbot :=
  if sessionId = "" then
    (st, .error "Session ID is required")
  else
    let st := { st with lastActivity := aset st.lastActivity sessionId now }
    let requested : Option String :=
      match characterName with
      | some cn => if cn = "" then none else some cn
      | none => none
    match alookup st.sessions sessionId with
    | some chatbot0 =>
      let currentCharacter := alookup st.sessionCharacters sessionId
      let chatbot1 :=
        match encryptionKey with
        | some k => { chatbot0 with loaderKey := some k }
        | none => chatbot0
      let st := { st with sessions := aset st.sessions sessionId chatbot1 }
      match requested with
      | some cn =>
        if some cn ≠ currentCharacter then
          match env.loadNamed cn with
          | .error e => (st, .error e)
          | .ok loadedName =>
            let chatbot2 :=
              { chatbot1 with activeCharacter := some loadedName,
                              cachedCharacter := none, history := [] }
            let st :=
              { st with
                sessionCharacters := aset st.sessionCharacters sessionId cn,
                sessions := aset st.sessions sessionId chatbot2 }
            (st, .ok chatbot2)
        else
          (st, .ok chatbot1)
      | none => (st, .ok chatbot1)
    | none =>
      let fresh : Chatbot :=
        { instId := st.nextInstId, history := [], loaderKey := none,
          activeCharacter := none, cachedCharacter := none }
      let st := { st with nextInstId := st.nextInstId + 1 }
      let chatbot1 :=
        match encryptionKey with
        | some k => { fresh with loaderKey := some k }
        | none => fresh
      match requested with
      | some cn =>
        match env.loadNamed cn with
        | .error e => (st, .error e)
        | .ok loadedName =>
          let chatbot2 := { chatbot1 with activeCharacter := some loadedName }
          let st :=
            { st with
              sessionCharacters := aset st.sessionCharacters sessionId cn }
          let st := { st with sessions := aset st.sessions sessionId chatbot2 }
          (st, .ok chatbot2)
      | none =>
        match env.loadDefault with
        | .error e => (st, .error e)
        | .ok loadedName =>
          let chatbot2 := { chatbot1 with activeCharacter := some loadedName }
          let st :=
            { st with
              sessionCharacters := aset st.sessionCharacters sessionId loadedName }
          let st := { st with sessions := aset st.sessions sessionId chatbot2 }
          (st, .ok chatbot2)

/-- `SessionManager.deleteSession(sessionId)`: removes the session record
and the activity timestamp, but only when a session record exists. -/
def deleteSession (st : SMState) (sessionId : String) : SMState :=
  if (alookup st.sessions sessionId).isSome then
    { st with
      sessions := aremove st.sessions sessionId,
      lastActivity := aremove st.lastActivity sessionId }
  else
    st

/-! ## Supporting lemmas about the file-system primitives -/

theorem append_cancel_suffix (a b s : String) (h : a ++ s = b ++ s) :
    a = b := by
  have hd := congrArg String.data h
  simp only [String.data_append] at hd
  have h2 := List.append_cancel_right hd
  cases a
  cases b
  exact congrArg String.mk h2

theorem readFileContent_congr (fs fs' : FS) (file : String)
    (key : Option String) (h : alookup fs' file = alookup fs file) :
    readFileContent fs' file key = readFileContent fs file key := by
  unfold readFileContent
  rw [h]

theorem readFileContent_ok_isSome (fs : FS) (file : String)
    (key : Option String) (r : ReadResult)
    (h : readFileContent fs file key = .ok r) :
    (alookup fs file).isSome := by
  unfold readFileContent at h
  cases hl : alookup fs file with
  | none => rw [hl] at h; exact Except.noConfusion h
  | some st => simp

theorem alookup_writeFileContent_ne (fs : FS) (file : String)
    (content : Plain) (key : Option String) (se : Bool) (file' : String)
    (h : file' ≠ file) :
    alookup (writeFileContent fs file content key se) file' =
      alookup fs file' := by
  cases key <;> cases se <;>
    simp [writeFileContent, alookup_aset_ne _ _ _ _ h]

theorem alookup_writeFileContent_enc (fs : FS) (file : String)
    (content : Plain) (k : String) :
    alookup (writeFileContent fs file content (some k) true) file =
      some (.enc k content) := by
  simp [writeFileContent, alookup_aset_self]

theorem akeys_writeFileContent_of_mem (fs : FS) (file : String)
    (content : Plain) (key : Option String) (se : Bool)
    (h : (alookup fs file).isSome) :
    akeys (writeFileContent fs file content key se) = akeys fs := by
  cases key <;> cases se <;>
    simp [writeFileContent, akeys_aset_of_mem _ _ _ h]

/-! ## Supporting lemmas about listProfiles -/

theorem listProfiles_congr (fs fs' : FS) (h : akeys fs' = akeys fs) :
    listProfiles fs' = listProfiles fs := by
  unfold listProfiles
  rw [h]

theorem addProfileName_nodup (acc : List String) (f : String)
    (h : acc.Nodup) : (addProfileName acc f).Nodup := by
  unfold addProfileName
  cases profileNameOfFile f with
  | none => exact h
  | some n =>
    by_cases hm : n ∈ acc
    · simpa [hm] using h
    · simp only [if_neg hm]
      simp [List.nodup_append, h, hm]

theorem foldl_addProfileName_nodup (files : List String) :
    ∀ acc : List String, acc.Nodup →
      (files.foldl addProfileName acc).Nodup := by
  induction files with
  | nil =>
    intro acc h
    simpa only [List.foldl_nil] using h
  | cons f rest ih =>
    intro acc h
    simp only [List.foldl_cons]
    exact ih _ (addProfileName_nodup acc f h)

theorem listProfiles_nodup (fs : FS) : (listProfiles fs).Nodup := by
  unfold listProfiles
  exact foldl_addProfileName_nodup _ [] List.nodup_nil

/-! ## Abort behavior of the re-encryption loop -/

/-- Both decryption attempts of the dual-key retry fail for this
profile. -/
def bothKeysFail (fs : FS) (name : String) (oldK newK : String) : Prop :=
  (∃ e, readFileContent fs (name ++ ".json") (some oldK) = .error e) ∧
  (∃ e, readFileContent fs (name ++ ".json") (some newK) = .error e)

theorem reEncryptOne_err (fs : FS) (n oldK newK : String) (e : String)
    (h : reEncryptOne fs n oldK newK = .error e) :
    e = reEncryptProfileErr := by
  unfold reEncryptOne at h
  by_cases hp : shouldEncryptProfile n = true
  · rw [if_pos hp] at h
    cases hr : readFileContent fs (n ++ ".json") (some oldK) with
    | ok r =>
      cases hpd : parseDocR r with
      | some d =>
        simp only [hr, hpd] at h
        exact Except.noConfusion h
      | none =>
        simp only [hr, hpd] at h
        exact (Except.error.inj h).symm
    | error e1 =>
      cases hr2 : readFileContent fs (n ++ ".json") (some newK) with
      | ok r2 =>
        simp only [hr, hr2] at h
        exact Except.noConfusion h
      | error e2 =>
        simp only [hr, hr2] at h
        exact (Except.error.inj h).symm
  · rw [if_neg hp] at h
    exact Except.noConfusion h

theorem saveProfile_frame (fs : FS) (n : String) (input : ProfileInput)
    (key : Option String) (file : String) (hf : file ≠ n ++ ".json") :
    alookup (saveProfile fs n input key) file = alookup fs file := by
  unfold saveProfile
  exact alookup_writeFileContent_ne _ _ _ _ _ _ hf

theorem reEncryptOne_frame (fs : FS) (n oldK newK : String) (fs1 : FS)
    (h : reEncryptOne fs n oldK newK = .ok fs1) (file : String)
    (hf : file ≠ n ++ ".json") : alookup fs1 file = alookup fs file := by
  unfold reEncryptOne at h
  by_cases hp : shouldEncryptProfile n = true
  · rw [if_pos hp] at h
    cases hr : readFileContent fs (n ++ ".json") (some oldK) with
    | ok r =>
      cases hpd : parseDocR r with
      | some d =>
        simp only [hr, hpd] at h
        rw [← Except.ok.inj h]
        exact saveProfile_frame fs n _ _ file hf
      | none =>
        simp only [hr, hpd] at h
        exact Except.noConfusion h
    | error e1 =>
      cases hr2 : readFileContent fs (n ++ ".json") (some newK) with
      | ok r2 =>
        simp only [hr, hr2] at h
        rw [← Except.ok.inj h]
      | error e2 =>
        simp only [hr, hr2] at h
        exact Except.noConfusion h
  · rw [if_neg hp] at h
    rw [← Except.ok.inj h]

theorem processProfiles_aborts (oldK newK : String) :
    ∀ (names : List String) (fs : FS) (name : String),
    names.Nodup → name ∈ names → shouldEncryptProfile name = true →
    bothKeysFail fs name oldK newK →
    processProfiles fs names oldK newK = .error reEncryptProfileErr := by
  intro names
  induction names with
  | nil =>
    intro fs name _ hm
    exact absurd hm (List.not_mem_nil name)
  | cons n rest ih =>
    intro fs name hnd hm hpriv hfail
    rcases List.mem_cons.mp hm with heq | hmem
    · subst heq
      have h1 : reEncryptOne fs name oldK newK = .error reEncryptProfileErr := by
        unfold reEncryptOne
        rw [if_pos hpriv]
        obtain ⟨⟨e1, he1⟩, ⟨e2, he2⟩⟩ := hfail
        rw [he1, he2]
      unfold processProfiles
      rw [h1]
    · cases hro : reEncryptOne fs n oldK newK with
      | error e =>
        have he := reEncryptOne_err fs n oldK newK e hro
        unfold processProfiles
        rw [hro, he]
      | ok fs1 =>
        unfold processProfiles
        rw [hro]
        have hne : name ++ ".json" ≠ n ++ ".json" := by
          intro hcontra
          have hn : name = n := append_cancel_suffix _ _ _ hcontra
          subst hn
          exact (List.nodup_cons.mp hnd).1 hmem
        have hl := reEncryptOne_frame fs n oldK newK fs1 hro (name ++ ".json") hne
        obtain ⟨⟨e1, he1⟩, ⟨e2, he2⟩⟩ := hfail
        refine ih fs1 name (List.Nodup.of_cons hnd) hmem hpriv ⟨⟨e1, ?_⟩, ⟨e2, ?_⟩⟩
        · rw [readFileContent_congr fs fs1 _ _ hl]; exact he1
        · rw [readFileContent_congr fs fs1 _ _ hl]; exact he2

theorem reEncryptAllData_aborts (fs : FS) (oldK newK name : String)
    (hm : name ∈ listProfiles fs) (hpriv : shouldEncryptProfile name = true)
    (hfail : bothKeysFail fs name oldK newK) :
    reEncryptAllData fs oldK newK = .error reEncryptProfileErr := by
  unfold reEncryptAllData
  rw [processProfiles_aborts oldK newK (listProfiles fs) fs name
    (listProfiles_nodup fs) hm hpriv hfail]

/-! ## Behavior of the re-encryption run on a healthy corpus -/

theorem saveProfile_full (fs : FS) (n : String) (c : Character)
    (key : Option String) :
    saveProfile fs n (.full c) key =
      writeFileContent fs (n ++ ".json") (.doc (.charDoc c)) key
        (shouldEncryptProfile n) := rfl

/-- The character file of `n` decrypts (or reads in the clear) under `k`
and parses as a version 2.0 character document. -/
def charReadableUnder (fs : FS) (n : String) (k : String) : Prop :=
  ∃ c, readFileContent fs (n ++ ".json") (some k) =
    .ok (.content (.doc (.charDoc c)))

theorem reEncryptOne_run1 (fs : FS) (n oldK newK : String) (c : Character)
    (hpriv : shouldEncryptProfile n = true)
    (hc : readFileContent fs (n ++ ".json") (some oldK) =
      .ok (.content (.doc (.charDoc c)))) :
    reEncryptOne fs n oldK newK =
      .ok (writeFileContent fs (n ++ ".json") (.doc (.charDoc c))
        (some newK) true) := by
  unfold reEncryptOne
  rw [if_pos hpriv]
  simp only [hc, parseDocR, docToInput, saveProfile_full, hpriv]

theorem processProfiles_run1 (oldK newK : String) :
    ∀ (names : List String) (fs : FS),
    names.Nodup →
    (∀ n ∈ names, shouldEncryptProfile n = true →
      charReadableUnder fs n oldK) →
    ∃ fs1, processProfiles fs names oldK newK = .ok fs1 ∧
      akeys fs1 = akeys fs ∧
      (∀ file : String,
        (∀ n ∈ names, shouldEncryptProfile n = true → file ≠ n ++ ".json") →
        alookup fs1 file = alookup fs file) ∧
      (∀ n ∈ names, shouldEncryptProfile n = true →
        ∃ c, alookup fs1 (n ++ ".json") =
          some (.enc newK (.doc (.charDoc c)))) := by
  intro names
  induction names with
  | nil =>
    intro fs _ _
    exact ⟨fs, rfl, rfl, fun _ _ => rfl,
      fun n hn => absurd hn (List.not_mem_nil n)⟩
  | cons n rest ih =>
    intro fs hnd hread
    have hnins : n ∉ rest := (List.nodup_cons.mp hnd).1
    by_cases hp : shouldEncryptProfile n = true
    · obtain ⟨c, hc⟩ := hread n (List.mem_cons_self n rest) hp
      have hstep := reEncryptOne_run1 fs n oldK newK c hp hc
      have hSome : (alookup fs (n ++ ".json")).isSome :=
        readFileContent_ok_isSome _ _ _ _ hc
      have hkeysW :
          akeys (writeFileContent fs (n ++ ".json") (.doc (.charDoc c))
            (some newK) true) = akeys fs :=
        akeys_writeFileContent_of_mem _ _ _ _ _ hSome
      have hselfW :
          alookup (writeFileContent fs (n ++ ".json") (.doc (.charDoc c))
            (some newK) true) (n ++ ".json") =
          some (.enc newK (.doc (.charDoc c))) :=
        alookup_writeFileContent_enc _ _ _ _
      have hframeW : ∀ file : String, file ≠ n ++ ".json" →
          alookup (writeFileContent fs (n ++ ".json") (.doc (.charDoc c))
            (some newK) true) file = alookup fs file :=
        fun file hf => alookup_writeFileContent_ne _ _ _ _ _ _ hf
      have hrest : ∀ m ∈ rest, shouldEncryptProfile m = true →
          charReadableUnder (writeFileContent fs (n ++ ".json")
            (.doc (.charDoc c)) (some newK) true) m oldK := by
        intro m hm hmp
        obtain ⟨cm, hcm⟩ := hread m (List.mem_cons_of_mem n hm) hmp
        refine ⟨cm, ?_⟩
        have hne : m ++ ".json" ≠ n ++ ".json" := by
          intro hcontra
          have hmn : m = n := append_cancel_suffix _ _ _ hcontra
          exact hnins (by rw [← hmn]; exact hm)
        rw [readFileContent_congr fs _ _ _ (hframeW _ hne)]
        exact hcm
      obtain ⟨fs1, hP, hK, hF, hE⟩ := ih _ (List.Nodup.of_cons hnd) hrest
      refine ⟨fs1, ?_, ?_, ?_, ?_⟩
      · simp only [processProfiles, hstep]
        exact hP
      · rw [hK, hkeysW]
      · intro file hfile
        have h1 : file ≠ n ++ ".json" := hfile n (List.mem_cons_self n rest) hp
        have h2 : ∀ m ∈ rest, shouldEncryptProfile m = true →
            file ≠ m ++ ".json" :=
          fun m hm hmp => hfile m (List.mem_cons_of_mem n hm) hmp
        rw [hF file h2, hframeW file h1]
      · intro m hm hmp
        rcases List.mem_cons.mp hm with heq | hmem
        · subst heq
          refine ⟨c, ?_⟩
          have hcond : ∀ m' ∈ rest, shouldEncryptProfile m' = true →
              (m ++ ".json") ≠ m' ++ ".json" := by
            intro m' hm' _ hcontra
            have hmm : m = m' := append_cancel_suffix _ _ _ hcontra
            exact hnins (by rw [hmm]; exact hm')
          rw [hF _ hcond, hselfW]
        · exact hE m hmem hmp
    · have hstep : reEncryptOne fs n oldK newK = .ok fs := by
        unfold reEncryptOne
        rw [if_neg hp]
      have hrest : ∀ m ∈ rest, shouldEncryptProfile m = true →
          charReadableUnder fs m oldK :=
        fun m hm hmp => hread m (List.mem_cons_of_mem n hm) hmp
      obtain ⟨fs1, hP, hK, hF, hE⟩ := ih fs (List.Nodup.of_cons hnd) hrest
      refine ⟨fs1, ?_, hK, ?_, ?_⟩
      · simp only [processProfiles, hstep]
        exact hP
      · intro file hfile
        exact hF file (fun m hm hmp => hfile m (List.mem_cons_of_mem n hm) hmp)
      · intro m hm hmp
        rcases List.mem_cons.mp hm with heq | hmem
        · subst heq
          exact absurd hmp hp
        · exact hE m hmem hmp

theorem processProfiles_skip (oldK newK : String) (hne : oldK ≠ newK) :
    ∀ (names : List String) (fs : FS),
    (∀ n ∈ names, shouldEncryptProfile n = true →
      ∃ p, alookup fs (n ++ ".json") = some (.enc newK p)) →
    processProfiles fs names oldK newK = .ok fs := by
  intro names
  induction names with
  | nil => intro fs _; rfl
  | cons n rest ih =>
    intro fs henc
    have hstep : reEncryptOne fs n oldK newK = .ok fs := by
      by_cases hp : shouldEncryptProfile n = true
      · obtain ⟨p, hp2⟩ := henc n (List.mem_cons_self n rest) hp
        unfold reEncryptOne
        rw [if_pos hp]
        have h1 : readFileContent fs (n ++ ".json") (some oldK) =
            .error .decryptFailed := by
          unfold readFileContent
          rw [hp2]
          simp [hne]
        have h2 : readFileContent fs (n ++ ".json") (some newK) =
            .ok (.content p) := by
          unfold readFileContent
          rw [hp2]
          simp
        simp only [h1, h2]
      · unfold reEncryptOne
        rw [if_neg hp]
    simp only [processProfiles, hstep]
    exact ih fs (fun m hm hmp => henc m (List.mem_cons_of_mem n hm) hmp)

theorem reEncryptUser_run1 (fs : FS) (oldK newK : String) (d : Doc)
    (h : readFileContent fs "user-profile.json" (some oldK) =
      .ok (.content (.doc d))) :
    reEncryptUserProfile fs oldK newK =
      .ok (writeFileContent fs "user-profile.json" (.doc d)
        (some newK) true) := by
  unfold reEncryptUserProfile
  simp only [h, parseDocR]

theorem reEncryptUser_skip (fs : FS) (oldK newK : String) (p : Plain)
    (hne : oldK ≠ newK)
    (h : alookup fs "user-profile.json" = some (.enc newK p)) :
    reEncryptUserProfile fs oldK newK = .ok fs := by
  unfold reEncryptUserProfile
  have h1 : readFileContent fs "user-profile.json" (some oldK) =
      .error .decryptFailed := by
    unfold readFileContent
    rw [h]
    simp [hne]
  have h2 : readFileContent fs "user-profile.json" (some newK) =
      .ok (.content p) := by
    unfold readFileContent
    rw [h]
    simp
  simp only [h1, h2]

/-- Claim C2: for a corpus in which every listed private character
document and the singleton user document reads and parses under the old
key (and no listed profile is named user-profile), running
reEncryptAllData twice with distinct keys is idempotent: the first run
succeeds and leaves every such document encrypted under the new key;
afterwards every document fails decryption under the old key and
succeeds under the new key, and the second run succeeds returning the
file system unchanged (every document is skipped without a further
write). -/
theorem reEncryptAllData_idempotent (fs : FS) (oldK newK : String)
    (hkeys : oldK ≠ newK)
    (hup : "user-profile" ∉ listProfiles fs)
    (hchar : ∀ n ∈ listProfiles fs, shouldEncryptProfile n = true →
      ∃ c, readFileContent fs (n ++ ".json") (some oldK) =
        .ok (.content (.doc (.charDoc c))))
    (huser : ∃ d, readFileContent fs "user-profile.json" (some oldK) =
      .ok (.content (.doc d))) :
    ∃ fs1, reEncryptAllData fs oldK newK = .ok fs1 ∧
      (∀ n ∈ listProfiles fs, shouldEncryptProfile n = true →
        (∃ p, alookup fs1 (n ++ ".json") = some (.enc newK p)) ∧
        readFileContent fs1 (n ++ ".json") (some oldK) =
          .error .decryptFailed ∧
        (∃ p, readFileContent fs1 (n ++ ".json") (some newK) =
          .ok (.content p))) ∧
      (∃ p, alookup fs1 "user-profile.json" = some (.enc newK p)) ∧
      readFileContent fs1 "user-profile.json" (some oldK) =
        .error .decryptFailed ∧
      (∃ p, readFileContent fs1 "user-profile.json" (some newK) =
        .ok (.content p)) ∧
      reEncryptAllData fs1 oldK newK = .ok fs1 := by
  obtain ⟨d, hd⟩ := huser
  obtain ⟨fsA, hPA, hKA, hFA, hEA⟩ :=
    processProfiles_run1 oldK newK (listProfiles fs) fs
      (listProfiles_nodup fs) hchar
  have hupfile : ∀ n ∈ listProfiles fs, shouldEncryptProfile n = true →
      "user-profile.json" ≠ n ++ ".json" := by
    intro n hn _ hcontra
    have h0 : ("user-profile" : String) ++ ".json" = n ++ ".json" := by
      rw [show ("user-profile" ++ ".json" : String) = "user-profile.json"
        from rfl]
      exact hcontra
    have hun : ("user-profile" : String) = n := append_cancel_suffix _ _ _ h0
    exact hup (by rw [hun]; exact hn)
  have hUA : alookup fsA "user-profile.json" =
      alookup fs "user-profile.json" := hFA _ hupfile
  have hdA : readFileContent fsA "user-profile.json" (some oldK) =
      .ok (.content (.doc d)) := by
    rw [readFileContent_congr fs fsA _ _ hUA]
    exact hd
  have hstepU := reEncryptUser_run1 fsA oldK newK d hdA
  have hUsome : (alookup fsA "user-profile.json").isSome :=
    readFileContent_ok_isSome _ _ _ _ hdA
  have hKF : akeys (writeFileContent fsA "user-profile.json" (.doc d)
      (some newK) true) = akeys fsA :=
    akeys_writeFileContent_of_mem _ _ _ _ _ hUsome
  have hUF : alookup (writeFileContent fsA "user-profile.json" (.doc d)
      (some newK) true) "user-profile.json" =
      some (.enc newK (.doc d)) :=
    alookup_writeFileContent_enc _ _ _ _
  have hCharF : ∀ n ∈ listProfiles fs, shouldEncryptProfile n = true →
      ∃ c, alookup (writeFileContent fsA "user-profile.json" (.doc d)
        (some newK) true) (n ++ ".json") =
        some (.enc newK (.doc (.charDoc c))) := by
    intro n hn hp
    obtain ⟨c, hc⟩ := hEA n hn hp
    refine ⟨c, ?_⟩
    rw [alookup_writeFileContent_ne _ _ _ _ _ _ (Ne.symm (hupfile n hn hp))]
    exact hc
  have hkeysF : akeys (writeFileContent fsA "user-profile.json" (.doc d)
      (some newK) true) = akeys fs := by
    rw [hKF, hKA]
  have hlistF : listProfiles (writeFileContent fsA "user-profile.json"
      (.doc d) (some newK) true) = listProfiles fs :=
    listProfiles_congr _ _ hkeysF
  have hrun1 : reEncryptAllData fs oldK newK =
      .ok (writeFileContent fsA "user-profile.json" (.doc d)
        (some newK) true) := by
    unfold reEncryptAllData
    simp only [hPA, hstepU]
  have hrun2P : processProfiles (writeFileContent fsA "user-profile.json"
      (.doc d) (some newK) true)
      (listProfiles (writeFileContent fsA "user-profile.json" (.doc d)
        (some newK) true)) oldK newK =
      .ok (writeFileContent fsA "user-profile.json" (.doc d)
        (some newK) true) := by
    rw [hlistF]
    apply processProfiles_skip oldK newK hkeys
    intro n hn hp
    obtain ⟨c, hc⟩ := hCharF n hn hp
    exact ⟨_, hc⟩
  have hrun2U : reEncryptUserProfile (writeFileContent fsA
      "user-profile.json" (.doc d) (some newK) true) oldK newK =
      .ok (writeFileContent fsA "user-profile.json" (.doc d)
        (some newK) true) :=
    reEncryptUser_skip _ _ _ _ hkeys hUF
  have hrun2 : reEncryptAllData (writeFileContent fsA "user-profile.json"
      (.doc d) (some newK) true) oldK newK =
      .ok (writeFileContent fsA "user-profile.json" (.doc d)
        (some newK) true) := by
    unfold reEncryptAllData
    simp only [hrun2P, hrun2U]
  refine ⟨writeFileContent fsA "user-profile.json" (Plain.doc d) (some newK) true,
    hrun1, ?_, ⟨Plain.doc d, hUF⟩, ?_, ⟨Plain.doc d, ?_⟩, hrun2⟩
  · intro n hn hp
    obtain ⟨c, hc⟩ := hCharF n hn hp
    refine ⟨⟨_, hc⟩, ?_, ⟨Plain.doc (Doc.charDoc c), ?_⟩⟩
    · unfold readFileContent
      rw [hc]
      simp [hkeys]
    · unfold readFileContent
      rw [hc]
      simp
  · unfold readFileContent
    rw [hUF]
    simp [hkeys]
  · unfold readFileContent
    rw [hUF]
    simp

/-! ## Claim C2 witness data -/

/-- A small healthy corpus: one private character document and the user
document, both encrypted under the old key. -/
def c2Char : Character :=
  { name := "Luna", gender := "female", species := "human", age := 25,
    role := "", companionType := "friend", appearance := "", traits := "",
    interests := "", backstory := "", boundaries := "", avoidWords := "",
    notifications := true, tagSelections := [], favorites := [] }

def c2FS : FS :=
  [("Luna.json", .enc "K1" (.doc (.charDoc c2Char))),
   ("user-profile.json", .enc "K1" (.doc (.userDoc DEFAULT_USER_DATA)))]

/-- Witness for claim C2, instantiating the idempotence theorem on the
concrete corpus `c2FS` with keys K1 and K2. -/
theorem c2_witness :
    ∃ fs1, reEncryptAllData c2FS "K1" "K2" = .ok fs1 ∧
      (∀ n ∈ listProfiles c2FS, shouldEncryptProfile n = true →
        (∃ p, alookup fs1 (n ++ ".json") = some (.enc "K2" p)) ∧
        readFileContent fs1 (n ++ ".json") (some "K1") =
          .error .decryptFailed ∧
        (∃ p, readFileContent fs1 (n ++ ".json") (some "K2") =
          .ok (.content p))) ∧
      (∃ p, alookup fs1 "user-profile.json" = some (.enc "K2" p)) ∧
      readFileContent fs1 "user-profile.json" (some "K1") =
        .error .decryptFailed ∧
      (∃ p, readFileContent fs1 "user-profile.json" (some "K2") =
        .ok (.content p)) ∧
      reEncryptAllData fs1 "K1" "K2" = .ok fs1 := by
  apply reEncryptAllData_idempotent c2FS "K1" "K2" (by decide) (by decide)
  · intro n hn hp
    have hl : listProfiles c2FS = ["Luna"] := by decide
    rw [hl] at hn
    have hn2 : n = "Luna" := by
      rcases List.mem_cons.mp hn with h | h
      · exact h
      · exact absurd h (List.not_mem_nil n)
    subst hn2
    exact ⟨c2Char, rfl⟩
  · exact ⟨.userDoc DEFAULT_USER_DATA, rfl⟩

/-! ## Claims C4 and C10: abort behavior and its error message -/

/-- Claim C4 (amended): when a listed private character document decrypts
under neither the old nor the new key, the whole operation aborts with an
error; but the error is the fixed message of `reEncryptProfileErr`,
independent of which character document failed, so it does not name the
offending document.  (The user-profile section uses the distinct fixed
message `reEncryptUserErr`.) -/
theorem reEncryptAllData_corrupted_aborts (fs : FS)
    (oldK newK name k3 : String) (p : Plain)
    (hm : name ∈ listProfiles fs)
    (hpriv : shouldEncryptProfile name = true)
    (hst : alookup fs (name ++ ".json") = some (.enc k3 p))
    (h1 : k3 ≠ oldK) (h2 : k3 ≠ newK) :
    reEncryptAllData fs oldK newK = .error reEncryptProfileErr := by
  apply reEncryptAllData_aborts fs oldK newK name hm hpriv
  constructor
  · refine ⟨.decryptFailed, ?_⟩
    simp only [readFileContent, hst]
    rw [if_neg (Ne.symm h1)]
  · refine ⟨.decryptFailed, ?_⟩
    simp only [readFileContent, hst]
    rw [if_neg (Ne.symm h2)]

/-- Corpus for the C4 counterexample and witness: the private document
Luna.json is encrypted under a third key K3, so neither K1 nor K2 can
decrypt it. -/
def c4Char : Character :=
  { name := "Luna", gender := "female", species := "human", age := 25,
    role := "", companionType := "friend", appearance := "", traits := "",
    interests := "", backstory := "", boundaries := "", avoidWords := "",
    notifications := true, tagSelections := [], favorites := [] }

def c4FS : FS :=
  [("Luna.json", .enc "K3" (.doc (.charDoc c4Char))),
   ("user-profile.json", .clear (.doc (.userDoc DEFAULT_USER_DATA)))]

/-- Claim C4 counterexample: re-encrypting the corpus `c4FS` (whose only
private document Luna.json decrypts under neither key) aborts with the
fixed message, and that message does not contain the name of the
offending document, contradicting the claim that the error names it. -/
theorem c4_counterexample :
    reEncryptAllData c4FS "K1" "K2" =
      .error "Failed to re-encrypt profile" ∧
    hasSubstring "Failed to re-encrypt profile" "Luna" = false :=
  ⟨rfl, rfl⟩

/-- Witness for the amended claim C4 at the concrete corpus `c4FS`. -/
theorem c4_witness :
    reEncryptAllData c4FS "K1" "K2" = .error reEncryptProfileErr :=
  reEncryptAllData_corrupted_aborts c4FS "K1" "K2" "Luna" "K3"
    (.doc (.charDoc c4Char)) (by decide) (by decide) rfl
    (by decide) (by decide)

/-- Claim C10: a private profile name that `listProfiles` reports although
no `<name>.json` file exists (a legacy-only `.txt` profile) makes
`reEncryptAllData` abort for every pair of keys: the read of the absent
json file fails under both the old and the new key. -/
theorem reEncryptAllData_legacy_only_aborts (fs : FS)
    (name oldK newK : String)
    (hm : name ∈ listProfiles fs)
    (hpriv : shouldEncryptProfile name = true)
    (hnojson : alookup fs (name ++ ".json") = none) :
    reEncryptAllData fs oldK newK = .error reEncryptProfileErr := by
  apply reEncryptAllData_aborts fs oldK newK name hm hpriv
  constructor
  · exact ⟨.notFound, by simp only [readFileContent, hnojson]⟩
  · exact ⟨.notFound, by simp only [readFileContent, hnojson]⟩

/-- Corpus for the C10 witness: the private profile Luna exists only as a
legacy text file; there is no Luna.json. -/
def c10FS : FS :=
  [("Luna.txt", .clear (.junk "name=Luna")),
   ("user-profile.json", .clear (.doc (.userDoc DEFAULT_USER_DATA)))]

/-- Witness for claim C10 at the concrete corpus `c10FS`. -/
theorem c10_witness :
    reEncryptAllData c10FS "oldpw" "newpw" = .error reEncryptProfileErr :=
  reEncryptAllData_legacy_only_aborts c10FS "Luna" "oldpw" "newpw"
    (by decide) (by decide) rfl

theorem docStoredAt_write_doc (fs : FS) (file : String) (d : Doc)
    (key : Option String) (se : Bool) :
    docStoredAt (writeFileContent fs file (.doc d) key se) file = some d := by
  cases key <;> cases se <;>
    simp [writeFileContent, docStoredAt, alookup_aset_self]

/-! ## Claim C1: what saveProfile preserves from the stored document -/

theorem readFileContent_after_write (fs : FS) (file : String)
    (content : Plain) (key : Option String) (se : Bool) :
    readFileContent (writeFileContent fs file content key se) file
      (if se = true then key else none) = .ok (.content content) := by
  cases key with
  | none =>
    cases se <;>
      simp [writeFileContent, readFileContent, alookup_aset_self]
  | some k =>
    cases se <;>
      simp [writeFileContent, readFileContent, alookup_aset_self]

theorem getProfile_after_write (fs : FS) (n : String) (c : Character)
    (key : Option String) :
    getProfile
      (writeFileContent fs (n ++ ".json") (.doc (.charDoc c)) key
        (shouldEncryptProfile n)) n key = .ok (.v2 c) := by
  simp only [getProfile, readFileContent_after_write, parseDocR]

theorem saveProfile_flat (fs : FS) (n : String) (p : ProfileFields)
    (key : Option String) :
    saveProfile fs n (.flat p) key =
      writeFileContent fs (n ++ ".json")
        (.doc (.charDoc (mergedCharacter n p
          (readParsedDoc fs (n ++ ".json")
            (if shouldEncryptProfile n = true then key else none)))))
        key (shouldEncryptProfile n) := rfl

/-- Claim C1 (amended): for a partial (non version 2.0) update of a
character profile whose stored document is readable with the supplied
key, saveProfile followed by getProfile preserves ONLY the favorites
list from the stored document (when the update omits favorites); every
other field absent from the update is reset to its built-in default
(gender female, species human, age 25, empty backstory and traits, empty
tagSelections) instead of keeping its previous stored value. -/
theorem saveProfile_preserves_only_favorites (fs : FS)
    (profileName : String) (p : ProfileFields) (key : Option String)
    (c0 : Character)
    (hread : readParsedDoc fs (profileName ++ ".json")
      (if shouldEncryptProfile profileName = true then key else none) =
      some (.charDoc c0))
    (hfav : p.favorites = none) :
    ∃ c1, getProfile (saveProfile fs profileName (.flat p) key)
        profileName key = .ok (.v2 c1) ∧
      c1.favorites = c0.favorites ∧
      (p.gender = none → c1.gender = "female") ∧
      (p.species = none → c1.species = "human") ∧
      (p.age = none → c1.age = 25) ∧
      (p.backstory = none → c1.backstory = "") ∧
      (p.traits = none → c1.traits = "") ∧
      (p.tagSelections = none → c1.tagSelections = []) := by
  refine ⟨mergedCharacter profileName p (some (.charDoc c0)),
    ?_, ?_, ?_, ?_, ?_, ?_, ?_, ?_⟩
  · rw [saveProfile_flat, hread]
    exact getProfile_after_write fs profileName _ key
  · simp [mergedCharacter, hfav]
  · intro h
    simp [mergedCharacter, jsOrStr, h]
  · intro h
    simp [mergedCharacter, jsOrStr, h]
  · intro h
    simp [mergedCharacter, h]
  · intro h
    simp [mergedCharacter, jsOrStr, h]
  · intro h
    simp [mergedCharacter, jsOrStr, h]
  · intro h
    simp [mergedCharacter, h]

/-- Stored character for the C1 example: gender male, species elf, a
nonempty backstory, and one favorite. -/
def c1Stored : Character :=
  { name := "Luna", gender := "male", species := "elf", age := 30,
    role := "guide", companionType := "mentor", appearance := "tall",
    traits := "kind", interests := "stars", backstory := "old story",
    boundaries := "b", avoidWords := "w", notifications := false,
    tagSelections := [("mood", "calm")],
    favorites := [{ id := "f1", text := "hello", senderName := "Luna",
                    timestamp := "t1", emotion := none, sentiment := none }] }

def c1FS : FS := [("Luna.json", .clear (.doc (.charDoc c1Stored)))]

/-- A partial update that only sets the name; gender, species, backstory
and the rest are absent. -/
def c1Update : ProfileFields := { name := some "Luna" }

/-- The gender field of a successful version 2.0 getProfile result. -/
def genderOfResult : Except String GetRes → Option String
  | .ok (.v2 c) => some c.gender
  | _ => none

/-- Claim C1 counterexample: the stored gender is male and the update
does not mention gender, yet after saveProfile plus getProfile the
stored document reads back with gender female (the built-in default) —
the absent field did not keep its previous stored value. -/
theorem c1_counterexample :
    c1Stored.gender = "male" ∧ c1Update.gender = none ∧
    genderOfResult (getProfile (saveProfile c1FS "Luna" (.flat c1Update)
      none) "Luna" none) = some "female" :=
  ⟨rfl, rfl, rfl⟩

/-- Witness for the amended claim C1 at the concrete example. -/
theorem c1_witness :
    ∃ c1, getProfile (saveProfile c1FS "Luna" (.flat c1Update) none)
        "Luna" none = .ok (.v2 c1) ∧
      c1.favorites = c1Stored.favorites ∧
      (c1Update.gender = none → c1.gender = "female") ∧
      (c1Update.species = none → c1.species = "human") ∧
      (c1Update.age = none → c1.age = 25) ∧
      (c1Update.backstory = none → c1.backstory = "") ∧
      (c1Update.traits = none → c1.traits = "") ∧
      (c1Update.tagSelections = none → c1.tagSelections = []) :=
  saveProfile_preserves_only_favorites c1FS "Luna" c1Update none
    c1Stored rfl rfl

/-! ## Claim C3: saveUserSettings on an unreadable existing file -/

/-- User document with a distinctive name, encrypted under key A. -/
def c3User : UserData :=
  { DEFAULT_USER_DATA with
    user := { DEFAULT_USER_DATA.user with name := "Alice" } }

def c3State : StoreState :=
  { fs := [("user-profile.json", .enc "A" (.doc (.userDoc c3User)))],
    defaults := DEFAULT_USER_DATA }

/-- The user name recorded in the stored user document, looking through
the cipher envelope. -/
def userNameAt (fs : FS) : Option String :=
  match docStoredAt fs "user-profile.json" with
  | some (.userDoc u) => some u.user.name
  | _ => none

/-- Claim C3 (code bug): the user document exists but is encrypted under
key A; calling saveUserSettings with key B does not fail — the refusal
throw in the source is swallowed by its own catch block — and the file
is overwritten with a defaults-derived document encrypted under B: the
stored name Alice is replaced by the default name User and the original
content is gone. -/
theorem c3_overwrites_unreadable_file :
    userNameAt c3State.fs = some "Alice" ∧
    (∃ p, alookup (saveUserSettings c3State {} (some "B")).fs
      "user-profile.json" = some (.enc "B" p)) ∧
    userNameAt (saveUserSettings c3State {} (some "B")).fs =
      some "User" ∧
    alookup (saveUserSettings c3State {} (some "B")).fs
      "user-profile.json" ≠ alookup c3State.fs "user-profile.json" := by
  refine ⟨rfl, ⟨.doc (.userDoc (applySettings DEFAULT_USER_DATA {})), rfl⟩,
    rfl, ?_⟩
  intro h
  exact absurd h (by decide)

/-! ## Claim C7: removeFavorite -/

/-- Claim C7: on a readable version 2.0 character document, when no
favorites entry carries the requested id, removeFavorite signals the
not-found error and performs no write; when exactly one entry carries
the id, exactly that entry is removed, the rest of the document is
preserved verbatim, and no other file changes. -/
theorem removeFavorite_spec (fs : FS) (profileName favoriteId : String)
    (key : Option String) (c : Character)
    (hread : readFileContent fs (profileName ++ ".json")
      (if shouldEncryptProfile profileName = true then key else none) =
      .ok (.content (.doc (.charDoc c)))) :
    ((∀ f ∈ c.favorites, f.id ≠ favoriteId) →
      removeFavorite fs profileName favoriteId key =
        .error ("Favorite " ++ favoriteId ++ " not found")) ∧
    (∀ pre f post, c.favorites = pre ++ f :: post →
      f.id = favoriteId →
      (∀ g ∈ pre, g.id ≠ favoriteId) →
      (∀ g ∈ post, g.id ≠ favoriteId) →
      ∃ fs1, removeFavorite fs profileName favoriteId key = .ok fs1 ∧
        docStoredAt fs1 (profileName ++ ".json") =
          some (.charDoc { c with favorites := pre ++ post }) ∧
        (∀ file, file ≠ profileName ++ ".json" →
          alookup fs1 file = alookup fs file)) := by
  constructor
  · intro hnone
    have hfilter : c.favorites.filter (fun fav => fav.id != favoriteId) =
        c.favorites := by
      apply List.filter_eq_self.mpr
      intro a ha
      simpa [bne_iff_ne] using hnone a ha
    simp [removeFavorite, hread, hfilter]
  · intro pre f post hsplit hfid hpre hpost
    have hpreF : pre.filter (fun fav => fav.id != favoriteId) = pre := by
      apply List.filter_eq_self.mpr
      intro a ha
      simpa [bne_iff_ne] using hpre a ha
    have hpostF : post.filter (fun fav => fav.id != favoriteId) = post := by
      apply List.filter_eq_self.mpr
      intro a ha
      simpa [bne_iff_ne] using hpost a ha
    have hfF : (f.id != favoriteId) = false := by
      simp [hfid]
    have hfilter : c.favorites.filter (fun fav => fav.id != favoriteId) =
        pre ++ post := by
      rw [hsplit]
      simp [List.filter_append, hpreF, hpostF, hfF]
    have hlen : (pre ++ post).length ≠ c.favorites.length := by
      rw [hsplit]
      simp only [List.length_append, List.length_cons]
      omega
    refine ⟨writeFileContent fs (profileName ++ ".json")
      (.doc (.charDoc { c with favorites := pre ++ post }))
      key (shouldEncryptProfile profileName), ?_, ?_, ?_⟩
    · simp only [removeFavorite, hread, hfilter, if_neg hlen]
    · exact docStoredAt_write_doc _ _ _ _ _
    · intro file hf
      exact alookup_writeFileContent_ne _ _ _ _ _ _ hf

def c7f1 : Favorite :=
  { id := "f1", text := "hello", senderName := "Luna",
    timestamp := "t1", emotion := none, sentiment := none }

def c7f2 : Favorite :=
  { id := "f2", text := "bye", senderName := "Luna",
    timestamp := "t2", emotion := some "joy", sentiment := some "pos" }

def c7Char : Character :=
  { name := "Luna", gender := "female", species := "human", age := 25,
    role := "", companionType := "friend", appearance := "", traits := "",
    interests := "", backstory := "", boundaries := "", avoidWords := "",
    notifications := true, tagSelections := [],
    favorites := [c7f1, c7f2] }

def c7FS : FS := [("Luna.json", .clear (.doc (.charDoc c7Char)))]

/-- Witness for claim C7 at a concrete two-favorite document: an unknown
id errors, and removing f1 leaves exactly f2. -/
theorem c7_witness :
    removeFavorite c7FS "Luna" "nope" none =
      .error ("Favorite " ++ "nope" ++ " not found") ∧
    (∃ fs1, removeFavorite c7FS "Luna" "f1" none = .ok fs1 ∧
      docStoredAt fs1 ("Luna" ++ ".json") =
        some (.charDoc { c7Char with favorites := [] ++ [c7f2] }) ∧
      (∀ file, file ≠ "Luna" ++ ".json" →
        alookup fs1 file = alookup c7FS file)) := by
  constructor
  · exact (removeFavorite_spec c7FS "Luna" "nope" none c7Char rfl).1
      (by decide)
  · exact (removeFavorite_spec c7FS "Luna" "f1" none c7Char rfl).2
      [] c7f1 [c7f2] rfl rfl (by simp) (by decide)

/-! ## Claim C9: the shared mutable module defaults -/

/-- Claim C9: when setActiveProfile cannot read the user document it
falls back to a shallow copy of the module-level defaults whose settings
sub-object it shares, so the mutation lands in the module defaults:
afterwards the defaults settings carry defaultActiveCharacter = name,
and any later saveConsent or saveUserSettings call whose read also fails
starts from this mutated object — the document each of them writes
carries the mutated defaultActiveCharacter rather than the pristine
built-in defaults. -/
theorem setActiveProfile_mutates_defaults (st : StoreState)
    (name : String) (key : Option String)
    (hread : readParsedDoc st.fs "user-profile.json" key = none) :
    (setActiveProfile st name key).defaults.settings.defaultActiveCharacter
      = some name ∧
    (∀ (key2 : Option String) (cd : Consent),
      readParsedDoc (setActiveProfile st name key).fs "user-profile.json"
        key2 = none →
      (saveConsent (setActiveProfile st name key) cd key2).defaults.consent
        = some cd ∧
      (∃ u, docStoredAt
          (saveConsent (setActiveProfile st name key) cd key2).fs
          "user-profile.json" = some (.userDoc u) ∧
        u.settings.defaultActiveCharacter = some name ∧
        u.consent = some cd)) ∧
    (∀ (key2 : Option String) (si : SettingsInput),
      readParsedDoc (setActiveProfile st name key).fs "user-profile.json"
        key2 = none →
      si.defaultActiveCharacter = none →
      (∃ u, docStoredAt
          (saveUserSettings (setActiveProfile st name key) si key2).fs
          "user-profile.json" = some (.userDoc u) ∧
        u.settings.defaultActiveCharacter = some name)) := by
  have hset : setActiveProfile st name key =
      { fs := writeFileContent st.fs "user-profile.json"
          (.doc (.userDoc { st.defaults with
            settings := { st.defaults.settings with
              defaultActiveCharacter := some name } })) key true,
        defaults := { st.defaults with
          settings := { st.defaults.settings with
            defaultActiveCharacter := some name } } } := by
    unfold setActiveProfile
    rw [hread]
  refine ⟨?_, ?_, ?_⟩
  · rw [hset]
  · intro key2 cd h2
    have hcons : saveConsent (setActiveProfile st name key) cd key2 =
        { fs := writeFileContent (setActiveProfile st name key).fs
            "user-profile.json"
            (.doc (.userDoc { (setActiveProfile st name key).defaults with
              consent := some cd })) key2 key2.isSome,
          defaults := { (setActiveProfile st name key).defaults with
            consent := some cd } } := by
      unfold saveConsent
      rw [h2]
    rw [hcons, hset]
    refine ⟨rfl, ⟨_, docStoredAt_write_doc _ _ _ _ _, rfl, rfl⟩⟩
  · intro key2 si h2 hdac
    have hsus : saveUserSettings (setActiveProfile st name key) si key2 =
        { fs := writeFileContent (setActiveProfile st name key).fs
            "user-profile.json"
            (.doc (.userDoc (applySettings
              (setActiveProfile st name key).defaults si))) key2 true,
          defaults := applySettings
            (setActiveProfile st name key).defaults si } := by
      unfold saveUserSettings
      rw [h2]
    rw [hsus, hset]
    refine ⟨_, docStoredAt_write_doc _ _ _ _ _, ?_⟩
    simp [applySettings, hdac]

def c9State : StoreState := { fs := [], defaults := DEFAULT_USER_DATA }

/-- Witness for claim C9: empty directory, setActiveProfile with key A,
then consent saved with no key and settings saved with key B. -/
theorem c9_witness :
    (setActiveProfile c9State "Nova" (some "A")).defaults.settings.defaultActiveCharacter
      = some "Nova" ∧
    (∀ (key2 : Option String) (cd : Consent),
      readParsedDoc (setActiveProfile c9State "Nova" (some "A")).fs
        "user-profile.json" key2 = none →
      (saveConsent (setActiveProfile c9State "Nova" (some "A")) cd
        key2).defaults.consent = some cd ∧
      (∃ u, docStoredAt
          (saveConsent (setActiveProfile c9State "Nova" (some "A")) cd
            key2).fs "user-profile.json" = some (.userDoc u) ∧
        u.settings.defaultActiveCharacter = some "Nova" ∧
        u.consent = some cd)) ∧
    (∀ (key2 : Option String) (si : SettingsInput),
      readParsedDoc (setActiveProfile c9State "Nova" (some "A")).fs
        "user-profile.json" key2 = none →
      si.defaultActiveCharacter = none →
      (∃ u, docStoredAt
          (saveUserSettings (setActiveProfile c9State "Nova" (some "A"))
            si key2).fs "user-profile.json" = some (.userDoc u) ∧
        u.settings.defaultActiveCharacter = some "Nova")) :=
  setActiveProfile_mutates_defaults c9State "Nova" (some "A") rfl

/-! ## Claim C5: character-load failure during session creation -/

/-- Claim C5 (amended): when the character load fails while creating a
new session, the error propagates to the caller and neither a session
record nor a session-character entry is registered; the activity
timestamp, however, was already written at the start of the call and is
left behind. -/
theorem getChatbot_create_failure (env : LoadEnv) (st : SMState)
    (sessionId cn e : String) (key : Option String) (now : Nat)
    (hsid : sessionId ≠ "") (hcn : cn ≠ "")
    (hnos : alookup st.sessions sessionId = none)
    (hnoc : alookup st.sessionCharacters sessionId = none)
    (hload : env.loadNamed cn = .error e) :
    (getChatbot env st sessionId (some cn) key now).2 = .error e ∧
    alookup (getChatbot env st sessionId (some cn) key now).1.sessions
      sessionId = none ∧
    alookup (getChatbot env st sessionId (some cn)
      key now).1.sessionCharacters sessionId = none ∧
    alookup (getChatbot env st sessionId (some cn) key now).1.lastActivity
      sessionId = some now := by
  have hmain : getChatbot env st sessionId (some cn) key now =
      ({ st with lastActivity := aset st.lastActivity sessionId now,
                 nextInstId := st.nextInstId + 1 }, .error e) := by
    unfold getChatbot
    rw [if_neg hsid]
    simp [hcn, hnos, hload]
  rw [hmain]
  exact ⟨rfl, hnos, hnoc, alookup_aset_self _ _ _⟩

def c5Env : LoadEnv :=
  { loadNamed := fun _ => .error "load failed",
    loadDefault := .error "load failed" }

/-- Claim C5 counterexample: after a failed creation the activity
timestamp map DOES retain an entry for the session id, contrary to the
claim that all three maps are left without an entry. -/
theorem c5_counterexample :
    (getChatbot c5Env initialSMState "s" (some "Nova") none 100).2 =
      .error "load failed" ∧
    alookup (getChatbot c5Env initialSMState "s" (some "Nova")
      none 100).1.lastActivity "s" = some 100 ∧
    alookup (getChatbot c5Env initialSMState "s" (some "Nova")
      none 100).1.lastActivity "s" ≠ none := by
  refine ⟨rfl, rfl, ?_⟩
  intro h
  rw [show alookup (getChatbot c5Env initialSMState "s" (some "Nova")
    none 100).1.lastActivity "s" = some 100 from rfl] at h
  exact Option.noConfusion h

/-- Witness for the amended claim C5 at the concrete failing loader. -/
theorem c5_witness :
    (getChatbot c5Env initialSMState "s" (some "Nova") none 100).2 =
      .error "load failed" ∧
    alookup (getChatbot c5Env initialSMState "s" (some "Nova")
      none 100).1.sessions "s" = none ∧
    alookup (getChatbot c5Env initialSMState "s" (some "Nova")
      none 100).1.sessionCharacters "s" = none ∧
    alookup (getChatbot c5Env initialSMState "s" (some "Nova")
      none 100).1.lastActivity "s" = some 100 :=
  getChatbot_create_failure c5Env initialSMState "s" "Nova" "load failed"
    none 100 (by decide) (by decide) rfl rfl rfl

/-! ## Claim C6: character switch on an existing session -/

/-- Claim C6: requesting a different character on an existing session
reloads the character into the same agent instance, clears its history,
nulls the cached-character slot, and records the new character for the
session; a following call without a character argument returns the very
same agent (history and recorded character unchanged). -/
theorem getChatbot_switch (env : LoadEnv) (st : SMState)
    (sessionId : String) (cb : Chatbot) (cur cn ln : String)
    (key : Option String) (now now2 : Nat)
    (hsid : sessionId ≠ "") (hcn : cn ≠ "")
    (hs : alookup st.sessions sessionId = some cb)
    (hc : alookup st.sessionCharacters sessionId = some cur)
    (hdiff : cn ≠ cur)
    (hload : env.loadNamed cn = .ok ln) :
    ∃ cb2 : Chatbot,
      (getChatbot env st sessionId (some cn) key now).2 = .ok cb2 ∧
      cb2.instId = cb.instId ∧
      cb2.history = [] ∧
      cb2.cachedCharacter = none ∧
      cb2.activeCharacter = some ln ∧
      alookup (getChatbot env st sessionId (some cn)
        key now).1.sessionCharacters sessionId = some cn ∧
      (getChatbot env (getChatbot env st sessionId (some cn) key now).1
        sessionId none none now2).2 = .ok cb2 ∧
      alookup (getChatbot env (getChatbot env st sessionId (some cn)
        key now).1 sessionId none none now2).1.sessionCharacters
        sessionId = some cn := by
  have hne : ¬ (some cn = some cur) := by
    intro hh
    exact hdiff (Option.some.inj hh)
  cases key with
  | none =>
    refine ⟨{ cb with activeCharacter := some ln, cachedCharacter := none, history := [] },
      ?_, rfl, rfl, rfl, rfl, ?_, ?_, ?_⟩
    · simp [getChatbot, hsid, hcn, hs, hc, hload, hne]
    · simp [getChatbot, hsid, hcn, hs, hc, hload, hne, alookup_aset_self]
    · simp [getChatbot, hsid, hcn, hs, hc, hload, hne, alookup_aset_self]
    · simp [getChatbot, hsid, hcn, hs, hc, hload, hne, alookup_aset_self]
  | some k =>
    refine ⟨{ cb with loaderKey := some k, activeCharacter := some ln, cachedCharacter := none, history := [] },
      ?_, rfl, rfl, rfl, rfl, ?_, ?_, ?_⟩
    · simp [getChatbot, hsid, hcn, hs, hc, hload, hne]
    · simp [getChatbot, hsid, hcn, hs, hc, hload, hne, alookup_aset_self]
    · simp [getChatbot, hsid, hcn, hs, hc, hload, hne, alookup_aset_self]
    · simp [getChatbot, hsid, hcn, hs, hc, hload, hne, alookup_aset_self]

def c6Env : LoadEnv :=
  { loadNamed := fun n => .ok n, loadDefault := .ok "Echo" }

/-- State after creating session s with character Nova and key K. -/
def c6St : SMState :=
  (getChatbot c6Env initialSMState "s" (some "Nova") (some "K") 1).1

def c6Cb : Chatbot :=
  { instId := 0, history := [], loaderKey := some "K",
    activeCharacter := some "Nova", cachedCharacter := none }

/-- Witness for claim C6: Nova to Astra switch on session s, then a call
with no character argument. -/
theorem c6_witness :
    ∃ cb2 : Chatbot,
      (getChatbot c6Env c6St "s" (some "Astra") none 2).2 = .ok cb2 ∧
      cb2.instId = c6Cb.instId ∧
      cb2.history = [] ∧
      cb2.cachedCharacter = none ∧
      cb2.activeCharacter = some "Astra" ∧
      alookup (getChatbot c6Env c6St "s" (some "Astra")
        none 2).1.sessionCharacters "s" = some "Astra" ∧
      (getChatbot c6Env (getChatbot c6Env c6St "s" (some "Astra")
        none 2).1 "s" none none 3).2 = .ok cb2 ∧
      alookup (getChatbot c6Env (getChatbot c6Env c6St "s" (some "Astra")
        none 2).1 "s" none none 3).1.sessionCharacters "s" =
        some "Astra" :=
  getChatbot_switch c6Env c6St "s" c6Cb "Nova" "Astra" "Astra" none 2 3
    (by decide) (by decide) rfl rfl (by decide) rfl

/-! ## Claim C8: deleteSession -/

theorem deleteSession_noop (st : SMState) (sessionId : String)
    (h : (alookup st.sessions sessionId).isSome = false) :
    deleteSession st sessionId = st := by
  unfold deleteSession
  rw [if_neg (by simp [h])]

/-- Claim C8 (amended): deleteSession removes the session record; it also
removes the activity timestamp, but only when a session record existed;
it is idempotent and, when no session record exists, it is a complete
no-op — in particular a dangling activity-timestamp entry left by a
failed session creation is NOT removed.  It touches no persisted
documents (it operates on the registry maps only). -/
theorem deleteSession_spec (st : SMState) (sessionId : String) :
    alookup (deleteSession st sessionId).sessions sessionId = none ∧
    ((alookup st.sessions sessionId).isSome = true →
      alookup (deleteSession st sessionId).lastActivity sessionId =
        none) ∧
    deleteSession (deleteSession st sessionId) sessionId =
      deleteSession st sessionId ∧
    ((alookup st.sessions sessionId).isSome = false →
      deleteSession st sessionId = st) := by
  by_cases h : (alookup st.sessions sessionId).isSome = true
  · have hd : deleteSession st sessionId =
        { st with sessions := aremove st.sessions sessionId,
                  lastActivity := aremove st.lastActivity sessionId } := by
      unfold deleteSession
      rw [if_pos h]
    refine ⟨?_, fun _ => ?_, ?_, fun hf => absurd h (by simp [hf])⟩
    · rw [hd]
      exact alookup_aremove_self _ _
    · rw [hd]
      exact alookup_aremove_self _ _
    · apply deleteSession_noop
      rw [hd]
      simp [alookup_aremove_self]
  · have hfalse : (alookup st.sessions sessionId).isSome = false := by
      cases hh : (alookup st.sessions sessionId).isSome
      · rfl
      · exact absurd hh h
    have hd : deleteSession st sessionId = st := deleteSession_noop st
      sessionId hfalse
    refine ⟨?_, fun ht => absurd ht h, ?_, fun _ => hd⟩
    · rw [hd]
      cases ho : alookup st.sessions sessionId with
      | none => rfl
      | some v =>
        rw [ho] at hfalse
        exact Bool.noConfusion hfalse
    · rw [hd, hd]

def c8Cb : Chatbot :=
  { instId := 0, history := [], loaderKey := none,
    activeCharacter := none, cachedCharacter := none }

def c8St : SMState :=
  { initialSMState with
      sessions := [("s", c8Cb)]
      lastActivity := [("s", 7)] }

/-- Witness for the amended claim C8 at a state with one live session. -/
theorem c8_witness :
    alookup (deleteSession c8St "s").sessions "s" = none ∧
    ((alookup c8St.sessions "s").isSome = true →
      alookup (deleteSession c8St "s").lastActivity "s" = none) ∧
    deleteSession (deleteSession c8St "s") "s" = deleteSession c8St "s" ∧
    ((alookup c8St.sessions "s").isSome = false →
      deleteSession c8St "s" = c8St) :=
  deleteSession_spec c8St "s"

def c8Env : LoadEnv :=
  { loadNamed := fun _ => .error "boom", loadDefault := .error "boom" }

/-- A reachable state with an activity timestamp but no session record:
the result of a session creation whose character load failed. -/
def c8Dangling : SMState :=
  (getChatbot c8Env initialSMState "t" (some "Nova") none 5).1

/-- Claim C8 counterexample: on a state where the activity map has an
entry but the session registry does not, deleteSession is a no-op and
the activity-timestamp entry survives the call, contrary to the claim
that after any single call neither map retains an entry. -/
theorem c8_counterexample :
    deleteSession c8Dangling "t" = c8Dangling ∧
    alookup (deleteSession c8Dangling "t").lastActivity "t" = some 5 ∧
    alookup (deleteSession c8Dangling "t").lastActivity "t" ≠ none := by
  refine ⟨rfl, rfl, ?_⟩
  intro h
  rw [show alookup (deleteSession c8Dangling "t").lastActivity "t" =
    some 5 from rfl] at h
  exact Option.noConfusion h

end Oread
